import Mathlib

/-!
Shallow embedding of the Confidential Batch Settlement Controller
(`src/contracts/recDEX_FHE.sol`, contract `RecDexFHE`).

Modelling conventions:
* `address` and `bytes32`/`uint256` values are `Nat` (`Address`, `Word`).
* Solidity mappings are total functions with the Solidity default value
  (`false`, `0`, the zero-initialized struct) as the function's value at
  unwritten keys.
* `block.timestamp` is an explicit `now : Nat` argument to the functions
  that read it; `msg.sender` is an explicit `sender : Address` argument;
  `address(this)` is the immutable `self` field of the state.
* `revert E` is `Except.error E`; a successful call returns the new state
  together with the list of events it emitted, in order.
* `keccak256(abi.encode(cts, addr))` is modelled by a computable injective
  pairing-based stand-in that is never zero (collision-freeness and
  non-zeroness of keccak are assumed).
* The external FHE oracle: `FHE.requestDecryption` returns a fresh request
  id chosen by the oracle, modelled as an extra argument `requestId` to
  `requestBatchSummaryDecryption`; the oracle's freshness guarantee is the
  side condition `OpOk` on steps.  `FHE.checkSignatures` is an arbitrary
  boolean oracle passed as an argument to `myCallback`.  `cleartexts` is
  modelled by the `uint256` it abi-encodes (`abi.decode` is the identity).
-/

abbrev Address := Nat
abbrev Word := Nat

namespace FHE

/-- Model of `FHE.asEuint32(n)`: the opaque handle of the trivial encryption
of `n` (the contract only ever converts it to `bytes32`). -/
def asEuint32 (n : Nat) : Word := n

/-- Model of `FHE.toBytes32(h)`: the raw `bytes32` view of a handle. -/
def toBytes32 (h : Word) : Word := h

end FHE

/-- Model of `keccak256(abi.encode(cts, addr))`: an injective computable
stand-in for the hash of a ciphertext-handle list together with the
controller's address.  It is never `0`, matching the (overwhelming)
assumption that keccak output is not the zero word. -/
def keccakEncode (cts : List Word) (addr : Address) : Word :=
  Nat.pair (cts.foldr Nat.pair 0) addr + 1

/-- `struct DecryptionContext { uint256 batchId; bytes32 stateHash; bool processed; }` -/
structure DecryptionContext where
  batchId : Nat
  stateHash : Word
  processed : Bool
deriving Repr, DecidableEq

/-- The zero-initialized struct a Solidity mapping yields at an unwritten key. -/
def defaultContext : DecryptionContext :=
  { batchId := 0, stateHash := 0, processed := false }

/-- The contract's error declarations. -/
inductive Err where
  | NotOwner
  | NotProvider
  | Paused
  | CooldownActive
  | InvalidBatch
  | ReplayAttempt
  | StateMismatch
  | DecryptionFailed
deriving Repr, DecidableEq

/-- The contract's event declarations (indexed by their emitted arguments). -/
inductive Event where
  | OwnershipTransferred (previousOwner newOwner : Address)
  | ProviderAdded (provider : Address)
  | ProviderRemoved (provider : Address)
  | PauseToggled (paused : Bool)
  | CooldownSet (cooldownSeconds : Nat)
  | BatchOpened (batchId : Nat)
  | BatchClosed (batchId : Nat)
  | EncryptedDataSubmitted (provider : Address) (batchId : Nat) (encryptedData : Word)
  | DecryptionRequested (requestId batchId : Nat)
  | DecryptionCompleted (requestId batchId : Nat) (cleartextValues : List Nat)
deriving Repr, DecidableEq

/-- The full storage of the `RecDexFHE` contract, plus the immutable
`self` (= `address(this)`). -/
structure State where
  self : Address
  owner : Address
  isProvider : Address → Bool
  paused : Bool
  cooldownSeconds : Nat
  lastSubmissionTime : Address → Nat
  lastDecryptionRequestTime : Address → Nat
  currentBatchId : Nat
  isBatchClosed : Nat → Bool
  decryptionContexts : Nat → DecryptionContext

/-- Point update of a map modelled as a function. -/
def updFn {α : Type} [DecidableEq α] {β : Type} (f : α → β) (k : α) (v : β) : α → β :=
  fun x => if x = k then v else f x

/-- The constructor: `owner = msg.sender; isProvider[owner] = true;
cooldownSeconds = 60`.  All other storage is zero-initialized. -/
def initialState (deployer : Address) (self : Address) : State :=
  { self := self
    owner := deployer
    isProvider := updFn (fun _ => false) deployer true
    paused := false
    cooldownSeconds := 60
    lastSubmissionTime := fun _ => 0
    lastDecryptionRequestTime := fun _ => 0
    currentBatchId := 0
    isBatchClosed := fun _ => false
    decryptionContexts := fun _ => defaultContext }

/-- `transferOwnership(newOwner)`: `onlyOwner`, always reassigns and emits. -/
def transferOwnership (sender newOwner : Address) (s : State) :
    Except Err (State × List Event) :=
  if sender ≠ s.owner then .error .NotOwner
  else .ok ({ s with owner := newOwner },
            [.OwnershipTransferred s.owner newOwner])

/-- `addProvider(provider)`: `onlyOwner`; silent no-op when already a provider. -/
def addProvider (sender provider : Address) (s : State) :
    Except Err (State × List Event) :=
  if sender ≠ s.owner then .error .NotOwner
  else if s.isProvider provider = false then
    .ok ({ s with isProvider := updFn s.isProvider provider true },
         [.ProviderAdded provider])
  else .ok (s, [])

/-- `removeProvider(provider)`: `onlyOwner`; silent no-op when not a provider. -/
def removeProvider (sender provider : Address) (s : State) :
    Except Err (State × List Event) :=
  if sender ≠ s.owner then .error .NotOwner
  else if s.isProvider provider = true then
    .ok ({ s with isProvider := updFn s.isProvider provider false },
         [.ProviderRemoved provider])
  else .ok (s, [])

/-- `setPaused(_paused)`: `onlyOwner`. -/
def setPaused (sender : Address) (b : Bool) (s : State) :
    Except Err (State × List Event) :=
  if sender ≠ s.owner then .error .NotOwner
  else .ok ({ s with paused := b }, [.PauseToggled b])

/-- `setCooldown(_cooldownSeconds)`: `onlyOwner`. -/
def setCooldown (sender : Address) (c : Nat) (s : State) :
    Except Err (State × List Event) :=
  if sender ≠ s.owner then .error .NotOwner
  else .ok ({ s with cooldownSeconds := c }, [.CooldownSet c])

/-- `openBatch()`: `onlyOwner whenNotPaused`; increments the counter and
clears the new current batch's closed flag. -/
def openBatch (sender : Address) (s : State) :
    Except Err (State × List Event) :=
  if sender ≠ s.owner then .error .NotOwner
  else if s.paused then .error .Paused
  else
    let newId := s.currentBatchId + 1
    .ok ({ s with currentBatchId := newId,
                  isBatchClosed := updFn s.isBatchClosed newId false },
         [.BatchOpened newId])

/-- `closeBatch(batchId)`: `onlyOwner whenNotPaused`; only the current
batch can be closed. -/
def closeBatch (sender : Address) (batchId : Nat) (s : State) :
    Except Err (State × List Event) :=
  if sender ≠ s.owner then .error .NotOwner
  else if s.paused then .error .Paused
  else if batchId ≠ s.currentBatchId then .error .InvalidBatch
  else .ok ({ s with isBatchClosed := updFn s.isBatchClosed batchId true },
            [.BatchClosed batchId])

/-- `submitEncryptedData(batchId, encryptedData)`:
`onlyProvider whenNotPaused`, then the cooldown gate, then the
closed-batch check; on success updates `lastSubmissionTime` and emits. -/
def submitEncryptedData (sender : Address) (now : Nat) (batchId : Nat)
    (encryptedData : Word) (s : State) : Except Err (State × List Event) :=
  if s.isProvider sender = false then .error .NotProvider
  else if s.paused then .error .Paused
  else if now < s.lastSubmissionTime sender + s.cooldownSeconds then
    .error .CooldownActive
  else if s.isBatchClosed batchId then .error .InvalidBatch
  else
    .ok ({ s with lastSubmissionTime := updFn s.lastSubmissionTime sender now },
         [.EncryptedDataSubmitted sender batchId encryptedData])

/-- The ciphertext-handle list built at request time
(lines 138–141: `dummySummary = FHE.asEuint32(0); cts = [FHE.toBytes32(dummySummary)]`).
It is given the batch id and the controller identity as arguments because
those are the only data in scope it could depend on; the source's
construction is constant in both. -/
def requestCts (batchId : Nat) (self : Address) : List Word :=
  [FHE.toBytes32 (FHE.asEuint32 0)]

/-- The ciphertext-handle list re-derived at callback time
(lines 164–166, syntactically the same construction). -/
def callbackCts (batchId : Nat) (self : Address) : List Word :=
  [FHE.toBytes32 (FHE.asEuint32 0)]

/-- `requestBatchSummaryDecryption(batchId)`:
`onlyProvider whenNotPaused`, cooldown gate, batch must be closed; then
builds the ciphertext list, hashes it with `address(this)`, asks the
oracle for a request id (modelled by the `requestId` argument) and stores
the context `{batchId, stateHash, processed = false}`. -/
def requestBatchSummaryDecryption (sender : Address) (now : Nat)
    (batchId : Nat) (requestId : Nat) (s : State) :
    Except Err (State × List Event) :=
  if s.isProvider sender = false then .error .NotProvider
  else if s.paused then .error .Paused
  else if now < s.lastDecryptionRequestTime sender + s.cooldownSeconds then
    .error .CooldownActive
  else if s.isBatchClosed batchId = false then .error .InvalidBatch
  else
    let cts := requestCts batchId s.self
    let stateHash := keccakEncode cts s.self
    let newCtx : DecryptionContext :=
      { batchId := batchId, stateHash := stateHash, processed := false }
    .ok ({ s with
            lastDecryptionRequestTime := updFn s.lastDecryptionRequestTime sender now,
            decryptionContexts := updFn s.decryptionContexts requestId newCtx },
         [.DecryptionRequested requestId batchId])

/-- `myCallback(requestId, cleartexts, proof)`: public, no modifier — the
`sender` argument is `msg.sender`, unused by the body.  Replay guard,
fingerprint re-derivation, proof verification (the `checkSigs` oracle),
then finalization. -/
def myCallback (checkSigs : Nat → Nat → Nat → Bool) (sender : Address)
    (requestId cleartexts proof : Nat) (s : State) :
    Except Err (State × List Event) :=
  let ctx := s.decryptionContexts requestId
  if ctx.processed then .error .ReplayAttempt
  else
    let cts := callbackCts ctx.batchId s.self
    let currentHash := keccakEncode cts s.self
    if currentHash ≠ ctx.stateHash then .error .StateMismatch
    else if checkSigs requestId cleartexts proof = false then
      .error .DecryptionFailed
    else
      let summaryValue := cleartexts
      let finalizedCtx : DecryptionContext := { ctx with processed := true }
      .ok ({ s with decryptionContexts := updFn s.decryptionContexts requestId finalizedCtx },
           [.DecryptionCompleted requestId ctx.batchId [summaryValue]])

/-- One external call to the contract, with every environment-supplied
datum (caller, timestamp, oracle answers) carried in the operation. -/
inductive Op where
  | transferOwnership (sender newOwner : Address)
  | addProvider (sender provider : Address)
  | removeProvider (sender provider : Address)
  | setPaused (sender : Address) (b : Bool)
  | setCooldown (sender : Address) (c : Nat)
  | openBatch (sender : Address)
  | closeBatch (sender : Address) (batchId : Nat)
  | submitEncryptedData (sender : Address) (now batchId : Nat) (encryptedData : Word)
  | requestBatchSummaryDecryption (sender : Address) (now batchId requestId : Nat)
  | myCallback (checkSigs : Nat → Nat → Nat → Bool) (sender : Address)
      (requestId cleartexts proof : Nat)

/-- Dispatch an operation to the corresponding contract function. -/
def applyOp (op : Op) (s : State) : Except Err (State × List Event) :=
  match op with
  | .transferOwnership sender newOwner => transferOwnership sender newOwner s
  | .addProvider sender provider => addProvider sender provider s
  | .removeProvider sender provider => removeProvider sender provider s
  | .setPaused sender b => setPaused sender b s
  | .setCooldown sender c => setCooldown sender c s
  | .openBatch sender => openBatch sender s
  | .closeBatch sender batchId => closeBatch sender batchId s
  | .submitEncryptedData sender now batchId d =>
      submitEncryptedData sender now batchId d s
  | .requestBatchSummaryDecryption sender now batchId requestId =>
      requestBatchSummaryDecryption sender now batchId requestId s
  | .myCallback checkSigs sender requestId cleartexts proof =>
      myCallback checkSigs sender requestId cleartexts proof s

/-- EVM revert semantics: a failing call leaves the state unchanged. -/
def step (op : Op) (s : State) : State :=
  match applyOp op s with
  | .ok (s2, _) => s2
  | .error _ => s

/-- The external decryption subsystem's guarantee (spec §5/§6): the request
id it returns is fresh — no context has ever been stored under it.  Every
other operation is unconstrained. -/
def OpOk (s : State) : Op → Prop
  | .requestBatchSummaryDecryption _ _ _ requestId =>
      s.decryptionContexts requestId = defaultContext
  | _ => True

/-- States reachable from a freshly deployed contract by environment-valid
operation sequences. -/
inductive Reachable : State → Prop where
  | init (deployer self : Address) : Reachable (initialState deployer self)
  | step {s : State} (op : Op) (h : Reachable s) (hok : OpOk s op) :
      Reachable (step op s)

/-- States reachable from a given state by environment-valid operation
sequences (reflexive-transitive closure of `step` under `OpOk`). -/
inductive ReachableFrom : State → State → Prop where
  | refl (s : State) : ReachableFrom s s
  | step {s t : State} (op : Op) (h : ReachableFrom s t) (hok : OpOk t op) :
      ReachableFrom s (step op t)

/-! ### Concrete sample states used by witnesses -/

/-- Fresh deployment: deployer `1`, contract address `100`. -/
def s0 : State := initialState 1 100

/-- After the owner opens batch 1. -/
def sOpen : State := step (Op.openBatch 1) s0

/-- After the owner closes batch 1. -/
def sClosed : State := step (Op.closeBatch 1 1) sOpen

/-- After provider 1 requests the summary of batch 1 at time 100; the
oracle returned request id 7. -/
def sReq : State := step (Op.requestBatchSummaryDecryption 1 100 1 7) sClosed

/-- After the oracle delivered a valid callback for request 7 with
cleartext 42: the context is finalized. -/
def sProc : State := step (Op.myCallback (fun _ _ _ => true) 2 7 42 5) sReq

/-- After the owner pauses the contract (from `sClosed`). -/
def sPausedState : State := step (Op.setPaused 1 true) sClosed

/-! ### C10 -/

/-- C10: `myCallback` imposes no restriction on the caller: two calls in the
same state with the same request id, cleartexts and proof, made by any two
senders, have identical outcomes (same success/failure and same resulting
state and events). -/
theorem c10_callback_caller_independent
    (checkSigs : Nat → Nat → Nat → Bool) (a b : Address)
    (requestId cleartexts proof : Nat) (s : State) :
    myCallback checkSigs a requestId cleartexts proof s =
      myCallback checkSigs b requestId cleartexts proof s := rfl

/-! ### C9 -/

/-- C9: `addProvider`/`removeProvider` by the owner are idempotent: a
redundant call is a silent no-op (identical state, no events), and calling
`addProvider p` twice in a row from a non-provider state emits exactly one
`ProviderAdded p` event in total and leaves `isProvider p = true`. -/
theorem c9_provider_toggles_idempotent (sender p : Address) (s : State)
    (hown : sender = s.owner) :
    (s.isProvider p = true → addProvider sender p s = .ok (s, [])) ∧
    (s.isProvider p = false → removeProvider sender p s = .ok (s, [])) ∧
    (∀ s1 ev1, addProvider sender p s = .ok (s1, ev1) →
       s1.isProvider p = true ∧
       addProvider sender p s1 = .ok (s1, []) ∧
       (s.isProvider p = false → ev1 = [Event.ProviderAdded p]) ∧
       (s.isProvider p = true → ev1 = [])) := by
  have hne : ¬ sender ≠ s.owner := by simp [hown]
  refine ⟨?_, ?_, ?_⟩
  · intro hp
    simp [addProvider, hne, hp]
  · intro hp
    simp [removeProvider, hne, hp]
  · intro s1 ev1 hcall
    by_cases hp : s.isProvider p = true
    · rw [addProvider, if_neg hne, if_neg (by simp [hp])] at hcall
      obtain ⟨hs1, hev1⟩ := Prod.mk.injEq .. ▸ Except.ok.inj hcall
      subst hs1
      refine ⟨hp, ?_, by simp [hp], fun _ => hev1.symm⟩
      simp [addProvider, hne, hp]
    · have hp2 : s.isProvider p = false := by simpa using hp
      rw [addProvider, if_neg hne, if_pos hp2] at hcall
      obtain ⟨hs1, hev1⟩ := Prod.mk.injEq .. ▸ Except.ok.inj hcall
      have hps1 : s1.isProvider p = true := by
        subst hs1; simp [updFn]
      refine ⟨hps1, ?_, fun _ => hev1.symm, by simp [hp2]⟩
      have howns1 : sender = s1.owner := by subst hs1; simpa using hown
      simp [addProvider, (by simp [howns1] : ¬ sender ≠ s1.owner), hps1]

/-- The state after `addProvider 1 5` on the fresh deployment `s0`. -/
def sAdded : State := step (Op.addProvider 1 5) s0

/-- C9 witness: on the fresh deployment, removing the non-provider `5` is a
no-op, and after the first `addProvider 1 5` (which emits the single
`ProviderAdded` event) the second call is a no-op with no event, leaving
`isProvider 5 = true`. -/
theorem c9_witness :
    s0.isProvider 5 = false ∧
    removeProvider 1 5 s0 = .ok (s0, []) ∧
    addProvider 1 5 s0 = .ok (sAdded, [Event.ProviderAdded 5]) ∧
    sAdded.isProvider 5 = true ∧
    addProvider 1 5 sAdded = .ok (sAdded, []) := by
  have h := c9_provider_toggles_idempotent 1 5 s0 rfl
  have hfirst : addProvider 1 5 s0 = .ok (sAdded, [Event.ProviderAdded 5]) := rfl
  have h3 := h.2.2 sAdded [Event.ProviderAdded 5] hfirst
  exact ⟨rfl, h.2.1 rfl, hfirst, h3.1, h3.2.1⟩

/-! ### C7 -/

/-- C7: throttling.  For an authorized provider while not paused, a
submission (resp. decryption-request) call fails with `CooldownActive`
exactly when `now < lastTime + cooldown` on the corresponding channel;
a successful call sets the channel's last-accepted time to `now`, so a
second submit within the cooldown window fails with `CooldownActive` and
a submit after the cooldown has elapsed (into a not-closed batch) succeeds. -/
theorem c7_cooldown_throttling (s : State) (sender : Address)
    (now batchId requestId : Nat) (d : Word)
    (hp : s.isProvider sender = true) (hpz : s.paused = false) :
    (submitEncryptedData sender now batchId d s = .error .CooldownActive ↔
       now < s.lastSubmissionTime sender + s.cooldownSeconds) ∧
    (requestBatchSummaryDecryption sender now batchId requestId s = .error .CooldownActive ↔
       now < s.lastDecryptionRequestTime sender + s.cooldownSeconds) ∧
    (∀ s2 evs, submitEncryptedData sender now batchId d s = .ok (s2, evs) →
       s2.lastSubmissionTime sender = now ∧
       (∀ now2 b2 d2, now2 < now + s2.cooldownSeconds →
          submitEncryptedData sender now2 b2 d2 s2 = .error .CooldownActive) ∧
       (∀ now2 b2 d2, now + s2.cooldownSeconds ≤ now2 → s2.isBatchClosed b2 = false →
          (submitEncryptedData sender now2 b2 d2 s2).isOk = true)) ∧
    (∀ s2 evs, requestBatchSummaryDecryption sender now batchId requestId s = .ok (s2, evs) →
       s2.lastDecryptionRequestTime sender = now) := by
  refine ⟨?_, ?_, ?_, ?_⟩
  · constructor
    · intro hcall
      by_contra hlt
      rw [submitEncryptedData, if_neg (by simp [hp]), if_neg (by simp [hpz]),
          if_neg hlt] at hcall
      split at hcall <;> simp at hcall
    · intro hlt
      rw [submitEncryptedData, if_neg (by simp [hp]), if_neg (by simp [hpz]),
          if_pos hlt]
  · constructor
    · intro hcall
      by_contra hlt
      rw [requestBatchSummaryDecryption, if_neg (by simp [hp]), if_neg (by simp [hpz]),
          if_neg hlt] at hcall
      split at hcall <;> simp at hcall
    · intro hlt
      rw [requestBatchSummaryDecryption, if_neg (by simp [hp]), if_neg (by simp [hpz]),
          if_pos hlt]
  · intro s2 evs hcall
    rw [submitEncryptedData, if_neg (by simp [hp]), if_neg (by simp [hpz])] at hcall
    split at hcall
    · simp at hcall
    · split at hcall
      · simp at hcall
      · obtain ⟨hs2, -⟩ := Prod.mk.injEq .. ▸ Except.ok.inj hcall
        subst hs2
        refine ⟨by simp [updFn], ?_, ?_⟩
        · intro now2 b2 d2 hlt2
          rw [submitEncryptedData, if_neg (by simp [hp]), if_neg (by simp [hpz]),
              if_pos (by simpa [updFn] using hlt2)]
        · intro now2 b2 d2 hle2 hopen2
          rw [submitEncryptedData, if_neg (by simp [hp]), if_neg (by simp [hpz]),
              if_neg (by simp only [updFn]; simpa using not_lt.mpr hle2),
              if_neg (by simpa using hopen2)]
          rfl
  · intro s2 evs hcall
    rw [requestBatchSummaryDecryption, if_neg (by simp [hp]), if_neg (by simp [hpz])] at hcall
    split at hcall
    · simp at hcall
    · split at hcall
      · simp at hcall
      · obtain ⟨hs2, -⟩ := Prod.mk.injEq .. ▸ Except.ok.inj hcall
        subst hs2
        simp [updFn]

/-- C7 witness: in `sOpen` (fresh deployment, batch 1 open, cooldown 60,
last submission time 0 for provider 1), a submit at time 100 succeeds; a
second submit at time 130 (< 100 + 60) fails with `CooldownActive`, and one
at time 160 succeeds. -/
theorem c7_witness :
    (step (Op.submitEncryptedData 1 100 1 0) sOpen).lastSubmissionTime 1 = 100 ∧
    submitEncryptedData 1 130 1 0 (step (Op.submitEncryptedData 1 100 1 0) sOpen) =
      .error .CooldownActive ∧
    (submitEncryptedData 1 160 1 0 (step (Op.submitEncryptedData 1 100 1 0) sOpen)).isOk
      = true := by
  have h := c7_cooldown_throttling sOpen 1 100 1 7 0 rfl rfl
  have hok : submitEncryptedData 1 100 1 0 sOpen =
      .ok (step (Op.submitEncryptedData 1 100 1 0) sOpen,
           [Event.EncryptedDataSubmitted 1 1 0]) := rfl
  have h3 := h.2.2.1 _ _ hok
  exact ⟨h3.1, h3.2.1 130 1 0 (by decide), h3.2.2 160 1 0 (by decide) rfl⟩

/-! ### C2 -/

/-- C2 counterexample: on the fresh deployment no context was ever stored
under request id 7, yet `myCallback` fails with `StateMismatch`, not
`ReplayAttempt` (the replay guard only fires on `processed = true`, and the
default context's zero fingerprint then fails the integrity check). -/
theorem c2_counterexample :
    s0.decryptionContexts 7 = defaultContext ∧
    myCallback (fun _ _ _ => true) 3 7 5 9 s0 = .error .StateMismatch ∧
    Err.StateMismatch ≠ Err.ReplayAttempt :=
  ⟨rfl, rfl, by decide⟩

/-- C2 amended: calling the disclosure callback for a request identifier
under which no context was ever stored (the mapping still holds the
zero-initialized default context) fails — but with `StateMismatch` rather
than `ReplayAttempt`: the default context passes the replay guard
(`processed` defaults to `false`) and is rejected by the fingerprint check,
whose stored value is the zero word while the recomputed fingerprint is a
hash and hence nonzero. -/
theorem c2_missing_context_state_mismatch
    (checkSigs : Nat → Nat → Nat → Bool) (sender : Address)
    (requestId cleartexts proof : Nat) (s : State)
    (h : s.decryptionContexts requestId = defaultContext) :
    myCallback checkSigs sender requestId cleartexts proof s =
      .error .StateMismatch := by
  rw [myCallback, h]
  have hproc : defaultContext.processed = false := rfl
  rw [if_neg (by simp [hproc])]
  have hz : defaultContext.stateHash = 0 := rfl
  rw [if_pos (by simp [hz, keccakEncode])]

/-- C2 witness for the amended claim: the fresh deployment holds no context
under request id 9, and the callback there fails with `StateMismatch`. -/
theorem c2_witness :
    s0.decryptionContexts 9 = defaultContext ∧
    myCallback (fun _ _ _ => false) 4 9 0 0 s0 = .error .StateMismatch :=
  ⟨rfl, c2_missing_context_state_mismatch (fun _ _ _ => false) 4 9 0 0 s0 rfl⟩

/-! ### Step characterization lemmas -/

/-- A failing call leaves the state unchanged. -/
theorem step_eq_of_error (op : Op) (s : State) (e : Err)
    (h : applyOp op s = .error e) : step op s = s := by
  simp [step, h]

/-- A successful call steps to the returned state. -/
theorem step_eq_of_ok (op : Op) (s : State) (s2 : State) (evs : List Event)
    (h : applyOp op s = .ok (s2, evs)) : step op s = s2 := by
  simp [step, h]

/-- Shape of the state after a successful `transferOwnership`. -/
theorem transferOwnership_ok {sender newOwner : Address} {s s2 : State} {evs : List Event}
    (h : transferOwnership sender newOwner s = .ok (s2, evs)) :
    s2 = { s with owner := newOwner } := by
  rw [transferOwnership] at h
  split at h
  · simp at h
  · exact (Prod.mk.injEq .. ▸ Except.ok.inj h).1.symm

/-- Shape of the state after a successful `addProvider`. -/
theorem addProvider_ok {sender provider : Address} {s s2 : State} {evs : List Event}
    (h : addProvider sender provider s = .ok (s2, evs)) :
    s2 = s ∨ s2 = { s with isProvider := updFn s.isProvider provider true } := by
  rw [addProvider] at h
  split at h
  · simp at h
  · split at h
    · exact .inr (Prod.mk.injEq .. ▸ Except.ok.inj h).1.symm
    · exact .inl (Prod.mk.injEq .. ▸ Except.ok.inj h).1.symm

/-- Shape of the state after a successful `removeProvider`. -/
theorem removeProvider_ok {sender provider : Address} {s s2 : State} {evs : List Event}
    (h : removeProvider sender provider s = .ok (s2, evs)) :
    s2 = s ∨ s2 = { s with isProvider := updFn s.isProvider provider false } := by
  rw [removeProvider] at h
  split at h
  · simp at h
  · split at h
    · exact .inr (Prod.mk.injEq .. ▸ Except.ok.inj h).1.symm
    · exact .inl (Prod.mk.injEq .. ▸ Except.ok.inj h).1.symm

/-- Shape of the state after a successful `setPaused`. -/
theorem setPaused_ok {sender : Address} {b : Bool} {s s2 : State} {evs : List Event}
    (h : setPaused sender b s = .ok (s2, evs)) :
    s2 = { s with paused := b } := by
  rw [setPaused] at h
  split at h
  · simp at h
  · exact (Prod.mk.injEq .. ▸ Except.ok.inj h).1.symm

/-- Shape of the state after a successful `setCooldown`. -/
theorem setCooldown_ok {sender : Address} {c : Nat} {s s2 : State} {evs : List Event}
    (h : setCooldown sender c s = .ok (s2, evs)) :
    s2 = { s with cooldownSeconds := c } := by
  rw [setCooldown] at h
  split at h
  · simp at h
  · exact (Prod.mk.injEq .. ▸ Except.ok.inj h).1.symm

/-- Shape of the state after a successful `openBatch`. -/
theorem openBatch_ok {sender : Address} {s s2 : State} {evs : List Event}
    (h : openBatch sender s = .ok (s2, evs)) :
    s2 = { s with currentBatchId := s.currentBatchId + 1,
                  isBatchClosed := updFn s.isBatchClosed (s.currentBatchId + 1) false } := by
  rw [openBatch] at h
  split at h
  · simp at h
  · split at h
    · simp at h
    · exact (Prod.mk.injEq .. ▸ Except.ok.inj h).1.symm

/-- Shape of the state after a successful `closeBatch`: only the current
batch can have been closed. -/
theorem closeBatch_ok {sender : Address} {batchId : Nat} {s s2 : State} {evs : List Event}
    (h : closeBatch sender batchId s = .ok (s2, evs)) :
    batchId = s.currentBatchId ∧
    s2 = { s with isBatchClosed := updFn s.isBatchClosed batchId true } := by
  rw [closeBatch] at h
  split at h
  · simp at h
  · split at h
    · simp at h
    · split at h
      · simp at h
      · next hb =>
        exact ⟨by simpa using hb, (Prod.mk.injEq .. ▸ Except.ok.inj h).1.symm⟩

/-- Shape of the state after a successful `submitEncryptedData`. -/
theorem submitEncryptedData_ok {sender : Address} {now batchId : Nat} {d : Word}
    {s s2 : State} {evs : List Event}
    (h : submitEncryptedData sender now batchId d s = .ok (s2, evs)) :
    s2 = { s with lastSubmissionTime := updFn s.lastSubmissionTime sender now } := by
  rw [submitEncryptedData] at h
  split at h
  · simp at h
  · split at h
    · simp at h
    · split at h
      · simp at h
      · split at h
        · simp at h
        · exact (Prod.mk.injEq .. ▸ Except.ok.inj h).1.symm

/-- Shape of the state after a successful `requestBatchSummaryDecryption`:
the context stored under the oracle's request id carries the fingerprint of
the request-time ciphertext list and `processed = false`. -/
theorem requestBatchSummaryDecryption_ok {sender : Address}
    {now batchId requestId : Nat} {s s2 : State} {evs : List Event}
    (h : requestBatchSummaryDecryption sender now batchId requestId s = .ok (s2, evs)) :
    s2 = { s with
            lastDecryptionRequestTime := updFn s.lastDecryptionRequestTime sender now,
            decryptionContexts := (updFn s.decryptionContexts requestId
              { batchId := batchId,
                stateHash := keccakEncode (requestCts batchId s.self) s.self,
                processed := false }) } := by
  rw [requestBatchSummaryDecryption] at h
  split at h
  · simp at h
  · split at h
    · simp at h
    · split at h
      · simp at h
      · split at h
        · simp at h
        · exact (Prod.mk.injEq .. ▸ Except.ok.inj h).1.symm

/-- Shape of the state after a successful `myCallback`: the replay guard
passed and exactly the targeted context's `processed` flag was set. -/
theorem myCallback_ok {checkSigs : Nat → Nat → Nat → Bool} {sender : Address}
    {requestId cleartexts proof : Nat} {s s2 : State} {evs : List Event}
    (h : myCallback checkSigs sender requestId cleartexts proof s = .ok (s2, evs)) :
    (s.decryptionContexts requestId).processed = false ∧
    s2 = { s with decryptionContexts := (updFn s.decryptionContexts requestId
            ({ s.decryptionContexts requestId with processed := true })) } := by
  simp only [myCallback] at h
  split at h
  · simp at h
  · next hproc =>
    refine ⟨by simpa using hproc, ?_⟩
    by_cases hh : keccakEncode (callbackCts (s.decryptionContexts requestId).batchId s.self) s.self
        ≠ (s.decryptionContexts requestId).stateHash
    · rw [if_pos hh] at h
      simp at h
    · rw [if_neg hh] at h
      by_cases hs : checkSigs requestId cleartexts proof = false
      · rw [if_pos hs] at h
        simp at h
      · rw [if_neg hs] at h
        exact (Prod.mk.injEq .. ▸ Except.ok.inj h).1.symm

/-! ### Invariants -/

/-- Batches beyond the current counter have never existed and are not
closed.  This is the key lifecycle invariant: `openBatch` only ever writes
the closed flag of a batch id that was never current before. -/
def BatchBound (s : State) : Prop :=
  ∀ b, s.currentBatchId < b → s.isBatchClosed b = false

/-- The fingerprint stored under a request id matches the fingerprint the
callback will recompute from its own ciphertext-list construction. -/
def HashOk (requestId : Nat) (s : State) : Prop :=
  (s.decryptionContexts requestId).stateHash =
    keccakEncode
      (callbackCts (s.decryptionContexts requestId).batchId s.self) s.self

/-- A fresh deployment satisfies `BatchBound`. -/
theorem batchBound_initial (deployer self : Address) :
    BatchBound (initialState deployer self) :=
  fun _ _ => rfl

/-- Every operation preserves `BatchBound`. -/
theorem batchBound_step (op : Op) (s : State) (h : BatchBound s) :
    BatchBound (step op s) := by
  cases hstep : applyOp op s with
  | error e => rw [step_eq_of_error op s e hstep]; exact h
  | ok p =>
    obtain ⟨s2, evs⟩ := p
    rw [step_eq_of_ok op s s2 evs hstep]
    cases op with
    | transferOwnership sender newOwner => rw [transferOwnership_ok hstep]; exact h
    | addProvider sender provider =>
        rcases addProvider_ok hstep with h2 | h2 <;> (rw [h2]; exact h)
    | removeProvider sender provider =>
        rcases removeProvider_ok hstep with h2 | h2 <;> (rw [h2]; exact h)
    | setPaused sender b => rw [setPaused_ok hstep]; exact h
    | setCooldown sender c => rw [setCooldown_ok hstep]; exact h
    | openBatch sender =>
        rw [openBatch_ok hstep]
        intro b hb
        have hb2 : s.currentBatchId + 1 < b := hb
        show updFn s.isBatchClosed (s.currentBatchId + 1) false b = false
        rw [updFn, if_neg (by omega)]
        exact h b (by omega)
    | closeBatch sender batchId =>
        obtain ⟨hcur, h2⟩ := closeBatch_ok hstep
        rw [h2]
        intro b hb
        have hb2 : s.currentBatchId < b := hb
        show updFn s.isBatchClosed batchId true b = false
        rw [updFn, if_neg (by omega)]
        exact h b hb2
    | submitEncryptedData sender now batchId d =>
        rw [submitEncryptedData_ok hstep]; exact h
    | requestBatchSummaryDecryption sender now batchId requestId =>
        rw [requestBatchSummaryDecryption_ok hstep]; exact h
    | myCallback checkSigs sender requestId cleartexts proof =>
        rw [(@myCallback_ok checkSigs sender requestId cleartexts proof s s2 evs hstep).2]
        exact h

/-- Every reachable state satisfies `BatchBound`. -/
theorem batchBound_reachable {s : State} (h : Reachable s) : BatchBound s := by
  induction h with
  | init deployer self => exact batchBound_initial deployer self
  | step op _ _ ih => exact batchBound_step op _ ih

/-- `BatchBound` is carried along any valid operation sequence. -/
theorem batchBound_reachableFrom {s t : State} (hbb : BatchBound s)
    (h : ReachableFrom s t) : BatchBound t := by
  induction h with
  | refl => exact hbb
  | step op _ _ ih => exact batchBound_step op _ ih

/-- A closed batch stays closed across any single operation (given the
lifecycle invariant). -/
theorem closed_batch_step (b : Nat) (op : Op) (s : State)
    (hbb : BatchBound s) (h : s.isBatchClosed b = true) :
    (step op s).isBatchClosed b = true := by
  cases hstep : applyOp op s with
  | error e => rw [step_eq_of_error op s e hstep]; exact h
  | ok p =>
    obtain ⟨s2, evs⟩ := p
    rw [step_eq_of_ok op s s2 evs hstep]
    cases op with
    | transferOwnership sender newOwner => rw [transferOwnership_ok hstep]; exact h
    | addProvider sender provider =>
        rcases addProvider_ok hstep with h2 | h2 <;> (rw [h2]; exact h)
    | removeProvider sender provider =>
        rcases removeProvider_ok hstep with h2 | h2 <;> (rw [h2]; exact h)
    | setPaused sender b2 => rw [setPaused_ok hstep]; exact h
    | setCooldown sender c => rw [setCooldown_ok hstep]; exact h
    | openBatch sender =>
        rw [openBatch_ok hstep]
        show updFn s.isBatchClosed (s.currentBatchId + 1) false b = true
        have hne : b ≠ s.currentBatchId + 1 := by
          intro he
          rw [he] at h
          rw [hbb (s.currentBatchId + 1) (Nat.lt_succ_self _)] at h
          cases h
        rw [updFn, if_neg hne]
        exact h
    | closeBatch sender batchId =>
        rw [(closeBatch_ok hstep).2]
        show updFn s.isBatchClosed batchId true b = true
        rw [updFn]
        split <;> simp [h]
    | submitEncryptedData sender now batchId d =>
        rw [submitEncryptedData_ok hstep]; exact h
    | requestBatchSummaryDecryption sender now batchId requestId =>
        rw [requestBatchSummaryDecryption_ok hstep]; exact h
    | myCallback checkSigs sender requestId cleartexts proof =>
        rw [(@myCallback_ok checkSigs sender requestId cleartexts proof s s2 evs hstep).2]
        exact h

/-! ### C6 -/

/-- C6: a batch, once closed, never reopens.  In any reachable state, if a
batch's closed flag is set, it remains set in every state reachable from
there by any valid operation sequence — in particular `openBatch`, which
writes the closed flag of the new current batch, never clears the flag of
a previously closed batch. -/
theorem c6_closed_batch_never_reopens (s : State) (b : Nat)
    (hreach : Reachable s) (hclosed : s.isBatchClosed b = true) :
    ∀ t, ReachableFrom s t → t.isBatchClosed b = true := by
  intro t hrf
  have hbb : BatchBound s := batchBound_reachable hreach
  induction hrf with
  | refl => exact hclosed
  | step op hrf2 hok ih =>
      exact closed_batch_step b op _ (batchBound_reachableFrom hbb hrf2) ih

/-- C6 witness: batch 1 is closed in the concrete reachable state
`sClosed`, and it is still closed after a further `openBatch` (which opens
batch 2). -/
theorem c6_witness :
    sClosed.isBatchClosed 1 = true ∧
    (step (Op.openBatch 1) sClosed).isBatchClosed 1 = true := by
  have hreach : Reachable sClosed :=
    Reachable.step (Op.closeBatch 1 1)
      (Reachable.step (Op.openBatch 1) (Reachable.init 1 100) trivial) trivial
  refine ⟨rfl, ?_⟩
  exact c6_closed_batch_never_reopens sClosed 1 hreach rfl _
    (ReachableFrom.step (Op.openBatch 1) (ReachableFrom.refl sClosed) trivial)

/-! ### C1 -/

/-- A context whose `processed` flag is set is never touched again by any
single valid operation: the callback's replay guard rejects it, and the
oracle's freshness guarantee keeps `requestBatchSummaryDecryption` from
overwriting it. -/
theorem processed_context_step (requestId : Nat) (op : Op) (s : State)
    (hok : OpOk s op)
    (h : (s.decryptionContexts requestId).processed = true) :
    (step op s).decryptionContexts requestId = s.decryptionContexts requestId := by
  cases hstep : applyOp op s with
  | error e => rw [step_eq_of_error op s e hstep]
  | ok p =>
    obtain ⟨s2, evs⟩ := p
    rw [step_eq_of_ok op s s2 evs hstep]
    cases op with
    | transferOwnership sender newOwner => rw [transferOwnership_ok hstep]
    | addProvider sender provider =>
        rcases addProvider_ok hstep with h2 | h2 <;> rw [h2]
    | removeProvider sender provider =>
        rcases removeProvider_ok hstep with h2 | h2 <;> rw [h2]
    | setPaused sender b => rw [setPaused_ok hstep]
    | setCooldown sender c => rw [setCooldown_ok hstep]
    | openBatch sender => rw [openBatch_ok hstep]
    | closeBatch sender batchId => rw [(closeBatch_ok hstep).2]
    | submitEncryptedData sender now batchId d => rw [submitEncryptedData_ok hstep]
    | requestBatchSummaryDecryption sender now batchId requestId2 =>
        rw [requestBatchSummaryDecryption_ok hstep]
        have hfresh : s.decryptionContexts requestId2 = defaultContext := hok
        have hne : requestId ≠ requestId2 := by
          intro he
          rw [he, hfresh] at h
          simp [defaultContext] at h
        show updFn s.decryptionContexts requestId2 _ requestId = _
        rw [updFn, if_neg hne]
    | myCallback checkSigs sender requestId2 cleartexts proof =>
        obtain ⟨hproc2, hs2⟩ :=
          @myCallback_ok checkSigs sender requestId2 cleartexts proof s s2 evs hstep
        rw [hs2]
        have hne : requestId ≠ requestId2 := by
          intro he
          rw [he, hproc2] at h
          cases h
        show updFn s.decryptionContexts requestId2 _ requestId = _
        rw [updFn, if_neg hne]

/-- C1: replay safety.  Once the context of a request id is `processed`,
every further `myCallback` for that id — with any caller, cleartexts and
proof — fails with `ReplayAttempt` and leaves the whole state unchanged
(so the context's batch id, fingerprint and flag, and the published
results, are untouched); moreover along every valid operation sequence the
context stays exactly as it is, so it is never processed again. -/
theorem c1_replay_safety (s : State) (requestId : Nat)
    (h : (s.decryptionContexts requestId).processed = true) :
    (∀ checkSigs sender cleartexts proof,
       myCallback checkSigs sender requestId cleartexts proof s =
         .error .ReplayAttempt ∧
       step (Op.myCallback checkSigs sender requestId cleartexts proof) s = s) ∧
    (∀ t, ReachableFrom s t →
       t.decryptionContexts requestId = s.decryptionContexts requestId ∧
       (t.decryptionContexts requestId).processed = true) := by
  constructor
  · intro checkSigs sender cleartexts proof
    have hfail : myCallback checkSigs sender requestId cleartexts proof s =
        .error .ReplayAttempt := by
      rw [myCallback, if_pos (by simp [h])]
    exact ⟨hfail, step_eq_of_error _ _ _ hfail⟩
  · intro t hrf
    induction hrf with
    | refl => exact ⟨rfl, h⟩
    | step op hrf2 hok ih =>
        have hstep := processed_context_step _ op _ hok (ih.2)
        rw [hstep]
        exact ih

/-- C1 witness: in the concrete state `sProc`, request 7 is processed; a
replayed callback (different caller, different payload) fails with
`ReplayAttempt` and leaves the state unchanged, and after a further
operation the context is still processed. -/
theorem c1_witness :
    (sProc.decryptionContexts 7).processed = true ∧
    myCallback (fun _ _ _ => true) 9 7 1 2 sProc = .error .ReplayAttempt ∧
    step (Op.myCallback (fun _ _ _ => true) 9 7 1 2) sProc = sProc ∧
    ((step (Op.submitEncryptedData 1 200 2 0) sProc).decryptionContexts 7).processed
      = true := by
  have h := c1_replay_safety sProc 7 rfl
  have h1 := h.1 (fun _ _ _ => true) 9 1 2
  have h2 := h.2 (step (Op.submitEncryptedData 1 200 2 0) sProc)
    (ReachableFrom.step (Op.submitEncryptedData 1 200 2 0)
      (ReachableFrom.refl sProc) trivial)
  exact ⟨rfl, h1.1, h1.2, h2.2⟩

/-! ### C3 -/

/-- `HashOk` contexts are non-default (their fingerprint is a hash and
hence nonzero). -/
theorem hashOk_ne_default {requestId : Nat} {s : State}
    (h : HashOk requestId s) :
    s.decryptionContexts requestId ≠ defaultContext := by
  intro he
  have h2 : (s.decryptionContexts requestId).stateHash =
      keccakEncode
        (callbackCts (s.decryptionContexts requestId).batchId s.self) s.self := h
  rw [he] at h2
  simp [defaultContext, keccakEncode] at h2

/-- Every valid operation preserves `HashOk`: nothing ever rewrites a
stored fingerprint (finalization only flips `processed`), the oracle never
reuses the id, and the controller identity is immutable. -/
theorem hashOk_step (requestId : Nat) (op : Op) (s : State)
    (hok : OpOk s op) (h : HashOk requestId s) :
    HashOk requestId (step op s) := by
  cases hstep : applyOp op s with
  | error e => rw [step_eq_of_error op s e hstep]; exact h
  | ok p =>
    obtain ⟨s2, evs⟩ := p
    rw [step_eq_of_ok op s s2 evs hstep]
    cases op with
    | transferOwnership sender newOwner => rw [transferOwnership_ok hstep]; exact h
    | addProvider sender provider =>
        rcases addProvider_ok hstep with h2 | h2 <;> (rw [h2]; exact h)
    | removeProvider sender provider =>
        rcases removeProvider_ok hstep with h2 | h2 <;> (rw [h2]; exact h)
    | setPaused sender b => rw [setPaused_ok hstep]; exact h
    | setCooldown sender c => rw [setCooldown_ok hstep]; exact h
    | openBatch sender => rw [openBatch_ok hstep]; exact h
    | closeBatch sender batchId => rw [(closeBatch_ok hstep).2]; exact h
    | submitEncryptedData sender now batchId d =>
        rw [submitEncryptedData_ok hstep]; exact h
    | requestBatchSummaryDecryption sender now batchId requestId2 =>
        rw [requestBatchSummaryDecryption_ok hstep]
        have hfresh : s.decryptionContexts requestId2 = defaultContext := hok
        have hne : requestId ≠ requestId2 := by
          intro he
          exact hashOk_ne_default h (he ▸ hfresh)
        show HashOk requestId _
        unfold HashOk
        show ((updFn s.decryptionContexts requestId2 _ requestId).stateHash = _)
        rw [updFn, if_neg hne]
        exact h
    | myCallback checkSigs sender requestId2 cleartexts proof =>
        obtain ⟨hproc2, hs2⟩ :=
          @myCallback_ok checkSigs sender requestId2 cleartexts proof s s2 evs hstep
        rw [hs2]
        unfold HashOk
        show ((updFn s.decryptionContexts requestId2 _ requestId).stateHash = _)
        by_cases he : requestId = requestId2
        · subst he
          rw [updFn, if_pos rfl]
          exact h
        · rw [updFn, if_neg he]
          exact h

/-- In any state where the stored fingerprint matches the recomputed one,
the callback cannot fail with `StateMismatch`. -/
theorem hashOk_no_state_mismatch (requestId : Nat) (s : State)
    (h : HashOk requestId s) (checkSigs : Nat → Nat → Nat → Bool)
    (sender : Address) (cleartexts proof : Nat) :
    myCallback checkSigs sender requestId cleartexts proof s ≠
      .error .StateMismatch := by
  simp only [myCallback]
  split
  · intro hcon
    exact absurd (Except.error.inj hcon) (by decide)
  · rw [if_neg (not_not_intro h.symm)]
    split
    · intro hcon
      exact absurd (Except.error.inj hcon) (by decide)
    · intro hcon
      exact Except.noConfusion hcon

/-- C3: the ciphertext-handle list built at request time and the one
re-derived at callback time are the same pure function of the batch id and
the controller identity; hence any context created by a successful
`requestBatchSummaryDecryption` stores exactly the fingerprint the
callback recomputes, and for that request id the `StateMismatch` branch is
unreachable — immediately and in every state reachable from there. -/
theorem c3_fingerprint_rederivation (sender : Address)
    (now batchId requestId : Nat) (s s2 : State) (evs : List Event)
    (hreq : requestBatchSummaryDecryption sender now batchId requestId s =
      .ok (s2, evs)) :
    (∀ b a, requestCts b a = callbackCts b a) ∧
    (s2.decryptionContexts requestId).stateHash =
      keccakEncode
        (callbackCts (s2.decryptionContexts requestId).batchId s2.self) s2.self ∧
    (∀ t, ReachableFrom s2 t →
       ∀ checkSigs sender2 cleartexts proof,
         myCallback checkSigs sender2 requestId cleartexts proof t ≠
           .error .StateMismatch) := by
  have hshape := requestBatchSummaryDecryption_ok hreq
  have hH : HashOk requestId s2 := by
    rw [hshape]
    unfold HashOk
    simp [updFn, requestCts, callbackCts]
  refine ⟨fun b a => rfl, hH, ?_⟩
  intro t hrf checkSigs sender2 cleartexts proof
  have hHt : HashOk requestId t := by
    induction hrf with
    | refl => exact hH
    | step op hrf2 hok ih => exact hashOk_step requestId op _ hok ih
  exact hashOk_no_state_mismatch requestId t hHt checkSigs sender2 cleartexts proof

/-- C3 witness: the concrete request from `sClosed` (id 7) stores exactly
the fingerprint the callback recomputes, and the callback on `sReq` never
fails with `StateMismatch` (here: with an all-rejecting proof oracle it
fails with `DecryptionFailed` instead, not `StateMismatch`). -/
theorem c3_witness :
    (sReq.decryptionContexts 7).stateHash =
      keccakEncode (callbackCts (sReq.decryptionContexts 7).batchId sReq.self)
        sReq.self ∧
    myCallback (fun _ _ _ => false) 3 7 42 0 sReq ≠ .error .StateMismatch := by
  have hreq : requestBatchSummaryDecryption 1 100 1 7 sClosed =
      .ok (sReq, [Event.DecryptionRequested 7 1]) := rfl
  have h := c3_fingerprint_rederivation 1 100 1 7 sClosed sReq
    [Event.DecryptionRequested 7 1] hreq
  exact ⟨h.2.1, h.2.2 sReq (ReachableFrom.refl sReq) (fun _ _ _ => false) 3 42 0⟩

/-! ### C4 -/

/-- C4: in `myCallback` the three checks dominate in order — a processed
context fails with `ReplayAttempt` regardless of everything else; an
unprocessed context with a fingerprint mismatch fails with `StateMismatch`
regardless of the proof; an unprocessed, fingerprint-matching context with
a bad proof fails with `DecryptionFailed`; and only when all three checks
pass does the call succeed, whose entire effect is setting the context's
`processed` flag and emitting the completion event.  Every failure leaves
the controller state unchanged. -/
theorem c4_callback_order_and_atomicity (checkSigs : Nat → Nat → Nat → Bool)
    (sender : Address) (requestId cleartexts proof : Nat) (s : State) :
    ((s.decryptionContexts requestId).processed = true →
       myCallback checkSigs sender requestId cleartexts proof s =
         .error .ReplayAttempt) ∧
    ((s.decryptionContexts requestId).processed = false →
       keccakEncode (callbackCts (s.decryptionContexts requestId).batchId s.self)
           s.self ≠ (s.decryptionContexts requestId).stateHash →
       myCallback checkSigs sender requestId cleartexts proof s =
         .error .StateMismatch) ∧
    ((s.decryptionContexts requestId).processed = false →
       keccakEncode (callbackCts (s.decryptionContexts requestId).batchId s.self)
           s.self = (s.decryptionContexts requestId).stateHash →
       checkSigs requestId cleartexts proof = false →
       myCallback checkSigs sender requestId cleartexts proof s =
         .error .DecryptionFailed) ∧
    ((s.decryptionContexts requestId).processed = false →
       keccakEncode (callbackCts (s.decryptionContexts requestId).batchId s.self)
           s.self = (s.decryptionContexts requestId).stateHash →
       checkSigs requestId cleartexts proof = true →
       myCallback checkSigs sender requestId cleartexts proof s =
         .ok ({ s with decryptionContexts := (updFn s.decryptionContexts requestId
                  ({ s.decryptionContexts requestId with processed := true })) },
              [Event.DecryptionCompleted requestId
                 (s.decryptionContexts requestId).batchId [cleartexts]])) ∧
    (∀ e, myCallback checkSigs sender requestId cleartexts proof s = .error e →
       step (Op.myCallback checkSigs sender requestId cleartexts proof) s = s) := by
  refine ⟨?_, ?_, ?_, ?_, ?_⟩
  · intro hp
    simp only [myCallback]
    rw [if_pos (by simp [hp])]
  · intro hp hh
    simp only [myCallback]
    rw [if_neg (by simp [hp]), if_pos hh]
  · intro hp hh hs
    simp only [myCallback]
    rw [if_neg (by simp [hp]), if_neg (not_not_intro hh), if_pos hs]
  · intro hp hh hs
    simp only [myCallback]
    rw [if_neg (by simp [hp]), if_neg (not_not_intro hh),
        if_neg (by simp [hs])]
  · intro e hfail
    exact step_eq_of_error _ _ e hfail

/-- C4 witness: at the concrete states — `sProc` (processed context 7),
`s0` (no context, zero fingerprint), and `sReq` (honest unprocessed
context 7) — the callback respectively replays, mismatches, fails proof
verification with a rejecting oracle, succeeds with an accepting oracle
finalizing exactly context 7, and each failing call leaves the state
unchanged. -/
theorem c4_witness :
    myCallback (fun _ _ _ => false) 3 7 42 0 sProc = .error .ReplayAttempt ∧
    myCallback (fun _ _ _ => true) 3 7 42 0 s0 = .error .StateMismatch ∧
    myCallback (fun _ _ _ => false) 3 7 42 0 sReq = .error .DecryptionFailed ∧
    myCallback (fun _ _ _ => true) 3 7 42 0 sReq =
      .ok ({ sReq with decryptionContexts := (updFn sReq.decryptionContexts 7
               ({ sReq.decryptionContexts 7 with processed := true })) },
           [Event.DecryptionCompleted 7 (sReq.decryptionContexts 7).batchId [42]]) ∧
    step (Op.myCallback (fun _ _ _ => false) 3 7 42 0) sReq = sReq := by
  refine ⟨?_, ?_, ?_, ?_, ?_⟩
  · exact (c4_callback_order_and_atomicity (fun _ _ _ => false) 3 7 42 0 sProc).1 rfl
  · exact (c4_callback_order_and_atomicity (fun _ _ _ => true) 3 7 42 0 s0).2.1 rfl
      (by decide)
  · exact (c4_callback_order_and_atomicity (fun _ _ _ => false) 3 7 42 0
      sReq).2.2.1 rfl (by decide) rfl
  · exact (c4_callback_order_and_atomicity (fun _ _ _ => true) 3 7 42 0
      sReq).2.2.2.1 rfl (by decide) rfl
  · exact (c4_callback_order_and_atomicity (fun _ _ _ => false) 3 7 42 0
      sReq).2.2.2.2 Err.DecryptionFailed
      ((c4_callback_order_and_atomicity (fun _ _ _ => false) 3 7 42 0
        sReq).2.2.1 rfl (by decide) rfl)

/-! ### C5 -/

/-- C5 counterexample: in the reachable state `sOpen` the only batch ever
opened is 1, yet an authorized, un-throttled provider's submission into the
never-opened batch 5 does NOT fail with `InvalidBatch` — it succeeds,
because `submitEncryptedData` only rejects batches whose closed flag is
set, and a nonexistent batch's flag is the default `false`. -/
theorem c5_counterexample :
    sOpen.currentBatchId = 1 ∧
    sOpen.isProvider 1 = true ∧
    sOpen.paused = false ∧
    sOpen.lastSubmissionTime 1 + sOpen.cooldownSeconds ≤ 100 ∧
    submitEncryptedData 1 100 5 0 sOpen ≠ .error .InvalidBatch ∧
    (submitEncryptedData 1 100 5 0 sOpen).isOk = true := by
  have hok : (submitEncryptedData 1 100 5 0 sOpen).isOk = true := rfl
  refine ⟨rfl, rfl, rfl, by decide, ?_, hok⟩
  intro h
  rw [h] at hok
  exact Bool.noConfusion hok

/-- C5 amended: a submission by an authorized, un-throttled provider while
not paused fails with `InvalidBatch` exactly when the target batch's
closed flag is set; every batch whose flag is unset — including batch
identifiers that were never opened (zero or greater than the current batch
identifier), whose flag is the default `false` — accepts the submission.
The code does not restrict submissions to the currently open batch. -/
theorem c5_closed_flag_only (s : State) (sender : Address) (now batchId : Nat)
    (d : Word) (hp : s.isProvider sender = true) (hpz : s.paused = false)
    (hcd : s.lastSubmissionTime sender + s.cooldownSeconds ≤ now) :
    (submitEncryptedData sender now batchId d s = .error .InvalidBatch ↔
       s.isBatchClosed batchId = true) ∧
    (s.isBatchClosed batchId = false →
       (submitEncryptedData sender now batchId d s).isOk = true) ∧
    (BatchBound s → s.currentBatchId < batchId →
       (submitEncryptedData sender now batchId d s).isOk = true) := by
  have hnl : ¬ now < s.lastSubmissionTime sender + s.cooldownSeconds :=
    not_lt.mpr hcd
  refine ⟨⟨?_, ?_⟩, ?_, ?_⟩
  · intro hcall
    by_contra hcl
    rw [submitEncryptedData, if_neg (by simp [hp]), if_neg (by simp [hpz]),
        if_neg hnl, if_neg (by simpa using hcl)] at hcall
    exact Except.noConfusion hcall
  · intro hcl
    rw [submitEncryptedData, if_neg (by simp [hp]), if_neg (by simp [hpz]),
        if_neg hnl, if_pos (by simp [hcl])]
  · intro hcl
    rw [submitEncryptedData, if_neg (by simp [hp]), if_neg (by simp [hpz]),
        if_neg hnl, if_neg (by simp [hcl])]
    rfl
  · intro hbb hgt
    rw [submitEncryptedData, if_neg (by simp [hp]), if_neg (by simp [hpz]),
        if_neg hnl, if_neg (by simp [hbb batchId hgt])]
    rfl

/-- C5 witness: in `sOpen` (current batch 1, open), submitting into the
closed-flag-free batch 2 succeeds, and `BatchBound` holds of `sOpen` so
the never-opened batch 2 is accepted via the amended claim. -/
theorem c5_witness :
    (submitEncryptedData 1 100 2 0 sOpen = .error .InvalidBatch ↔
       sOpen.isBatchClosed 2 = true) ∧
    (submitEncryptedData 1 100 2 0 sOpen).isOk = true := by
  have hbb : BatchBound sOpen :=
    batchBound_reachable
      (Reachable.step (Op.openBatch 1) (Reachable.init 1 100) trivial)
  have h := c5_closed_flag_only sOpen 1 100 2 0 rfl rfl (by decide)
  exact ⟨h.1, h.2.2 hbb (by decide)⟩

/-! ### C8 -/

/-- C8 counterexample: while paused, a `submitEncryptedData` call from a
non-provider fails with `NotProvider`, not `Paused` — the authorization
modifier runs before the pause check — so not *every* call to the gated
operations fails with `Paused`. -/
theorem c8_counterexample :
    sPausedState.paused = true ∧
    sPausedState.isProvider 3 = false ∧
    submitEncryptedData 3 100 1 0 sPausedState = .error .NotProvider ∧
    Err.NotProvider ≠ Err.Paused :=
  ⟨rfl, rfl, rfl, by decide⟩

/-- C8 amended: while paused, every *authorized* call to the gated
operations fails with `Paused` — `openBatch`/`closeBatch` called by the
owner, submissions and decryption requests by a provider (unauthorized
callers fail with `NotOwner`/`NotProvider` first, as the authorization
modifier precedes the pause check) — while the admin operations
(`transferOwnership`, `addProvider`, `removeProvider`, `setPaused`,
`setCooldown`) still succeed for the owner. -/
theorem c8_pause_blocks_gated_ops (s : State) (hpz : s.paused = true) :
    openBatch s.owner s = .error .Paused ∧
    (∀ b, closeBatch s.owner b s = .error .Paused) ∧
    (∀ sender now b d, s.isProvider sender = true →
       submitEncryptedData sender now b d s = .error .Paused) ∧
    (∀ sender now b requestId, s.isProvider sender = true →
       requestBatchSummaryDecryption sender now b requestId s = .error .Paused) ∧
    (∀ x, (transferOwnership s.owner x s).isOk = true) ∧
    (∀ p, (addProvider s.owner p s).isOk = true) ∧
    (∀ p, (removeProvider s.owner p s).isOk = true) ∧
    (∀ b, (setPaused s.owner b s).isOk = true) ∧
    (∀ c, (setCooldown s.owner c s).isOk = true) := by
  refine ⟨?_, ?_, ?_, ?_, ?_, ?_, ?_, ?_, ?_⟩
  · rw [openBatch, if_neg (by simp), if_pos hpz]
  · intro b
    rw [closeBatch, if_neg (by simp), if_pos hpz]
  · intro sender now b d hp
    rw [submitEncryptedData, if_neg (by simp [hp]), if_pos hpz]
  · intro sender now b requestId hp
    rw [requestBatchSummaryDecryption, if_neg (by simp [hp]), if_pos hpz]
  · intro x
    rw [transferOwnership, if_neg (by simp)]
    rfl
  · intro p
    rw [addProvider, if_neg (by simp)]
    split <;> rfl
  · intro p
    rw [removeProvider, if_neg (by simp)]
    split <;> rfl
  · intro b
    rw [setPaused, if_neg (by simp)]
    rfl
  · intro c
    rw [setCooldown, if_neg (by simp)]
    rfl

/-- C8 witness: in the concrete paused state, the owner's `openBatch` and
provider 1's submission and decryption request all fail with `Paused`,
while `addProvider` by the owner still succeeds. -/
theorem c8_witness :
    sPausedState.paused = true ∧
    openBatch 1 sPausedState = .error .Paused ∧
    submitEncryptedData 1 200 1 0 sPausedState = .error .Paused ∧
    requestBatchSummaryDecryption 1 200 1 8 sPausedState = .error .Paused ∧
    (addProvider 1 5 sPausedState).isOk = true := by
  have h := c8_pause_blocks_gated_ops sPausedState rfl
  exact ⟨rfl, h.1, h.2.2.1 1 200 1 0 rfl, h.2.2.2.1 1 200 1 8 rfl,
         h.2.2.2.2.2.1 5⟩
